import Mathlib

/-!
Verification of `util/validate-jar-language-level.py`.

The script validates that every class file inside a jar (or inside the
`classes.jar` nested in an aar) targets one expected bytecode major version.
We embed the script shallowly: archive entries become a `ZipInfo` structure,
the external disassembler becomes an oracle `javap : String → String` giving
its stdout for a class argument, the regex `findall` over the pattern
"major version: (\d+)" is implemented directly, and each `raise` becomes an
`Except.error` carrying a structured `RunError`.  Filesystem effects of the
aar branch (mkdtemp / extract / rmtree) are recorded in an event trace.
-/

set_option maxRecDepth 4000

namespace ValidateJar

/-- An entry of a zip archive: its stored filename and its directory flag,
mirroring the `filename` and `is_dir()` of a Python `ZipInfo`. -/
structure ZipInfo where
  filename : String
  isDir : Bool
deriving DecidableEq

/-- The characters of the literal part of the regex `major version: (\d+)`. -/
def majorPat : List Char := "major version: ".toList

/-- Fuelled scanner implementing Python `re.findall` for the specific pattern
`major version: (\d+)`: scan left to right; at a position where the literal
prefix matches and at least one digit follows, capture the maximal digit run
and resume after it, otherwise advance one character. -/
def findallAux : Nat → List Char → List String
  | 0, _ => []
  | _ + 1, [] => []
  | fuel + 1, c :: rest =>
    if majorPat.isPrefixOf (c :: rest) then
      let after := (c :: rest).drop majorPat.length
      let ds := after.takeWhile Char.isDigit
      if ds.isEmpty then
        findallAux fuel rest
      else
        String.mk ds :: findallAux fuel (after.drop ds.length)
    else
      findallAux fuel rest

/-- `language_level_pattern.findall(output)` of the script: all captures of
`major version: (\d+)` in the disassembler output, left to right. -/
def findallMajor (s : String) : List String :=
  findallAux s.toList.length s.toList

/-- Python `s.startswith(p)`: `p` is a character-wise prefix of `s`. -/
def strStartsWith (s p : String) : Bool :=
  p.toList.isPrefixOf s.toList

/-- Python `s.endswith(p)`: `p` is a character-wise suffix of `s`. -/
def strEndsWith (s p : String) : Bool :=
  p.toList.isSuffixOf s.toList

/-- The fixed list `ignore_entries_prefix` of the script. -/
def ignoredEntryPrefixes : List String :=
  ["dagger/spi/internal/shaded/", "dagger/grpc/shaded/"]

/-- `ignore_entry(filename)` of the script: whether the entry name starts with
one of the vendored/shaded prefixes. -/
def ignore_entry (filename : String) : Bool :=
  ignoredEntryPrefixes.any fun p => strStartsWith filename p

/-- The filter of the scanning loop: the entry is processed when it is not a
directory, its name ends in `.class`, and it is not ignored. -/
def isProcessed (info : ZipInfo) : Bool :=
  !info.isDir && strEndsWith info.filename ".class" && !ignore_entry info.filename

/-- `info.filename[:-6]` of the script: the class argument handed to the
disassembler, the entry name with the trailing `.class` removed. -/
def classArg (info : ZipInfo) : String :=
  info.filename.dropRight 6

/-- The captures of the major-version pattern in the disassembler output for
one entry. -/
def entryVersion (javap : String → String) (info : ZipInfo) : List String :=
  findallMajor (javap (classArg info))

/-- The errors the script can raise, each constructor one `raise` site (plus
the `KeyError` of `ZipFile.extract` and the `ValueError` of tuple unpacking). -/
inductive RunError where
  /-- `Expected only two arguments but got N` (carries `len(argv)`). -/
  | usageError (argc : Nat)
  /-- unpacking `argv[-2:]` into two names fails (carries how many it got). -/
  | unpackError (got : Nat)
  /-- `Invalid jar file: F`. -/
  | invalidJar (file : String)
  /-- `Expected exactly one match but found: M` (carries the match list). -/
  | parseError (found : List String)
  /-- `ZipFile.extract` finds no entry of that name in the outer archive. -/
  | keyError (entry : String)
  /-- the final `Found invalid entries in ...` error (carries the message). -/
  | validationError (msg : String)
deriving DecidableEq

/-- The scanning loop of `_invalid_language_level`: walk the entries in stored
order; for each processed entry take the pattern captures of the disassembler
output, abort when there is not exactly one, and append `name: version` when
the single capture differs from the expected level. -/
def processEntries (javap : String → String) (expected : String) :
    List ZipInfo → Except RunError (List String)
  | [] => .ok []
  | info :: rest =>
    if isProcessed info then
      match entryVersion javap info with
      | [v] =>
        match processEntries javap expected rest with
        | .error e => .error e
        | .ok tail =>
          .ok (if v = expected then tail else (info.filename ++ ": " ++ v) :: tail)
      | found => .error (.parseError found)
    else
      processEntries javap expected rest

/-- A jar archive as the script observes it: its entry list in stored order,
and the stdout the disassembler produces for each class argument against it. -/
structure Jar where
  entries : List ZipInfo
  javap : String → String

/-- `_invalid_language_level(jar_file, expected_language_level)` of the
script, over the jar value its path denotes. -/
def invalid_language_level (j : Jar) (expected : String) :
    Except RunError (List String) :=
  processEntries j.javap expected j.entries

/-- A file opened as a zip: the view of it as a jar to scan, and the content
of its entry literally named `classes.jar` (as a jar), when present. -/
structure Zip where
  jar : Jar
  classesJar : Option Jar

/-- Filesystem events of the aar branch of `main`. -/
inductive FsEvent where
  | mkdtemp
  | extractClasses
  | rmtree
deriving DecidableEq

/-- The message of the final validation error of `main`:
`Found invalid entries in {jar} that do not match the expected java language
level ({level}):` followed by the entries joined by newline-and-indent. -/
def validationMessage (jarFile level : String) (entries : List String) : String :=
  "Found invalid entries in " ++ jarFile ++
    " that do not match the expected java language level (" ++ level ++
    "):\n    " ++ String.intercalate "\n    " entries

/-- The if/elif/else of `main` computing `invalid_entries`: a `.jar` path is
scanned directly with no filesystem event; a `.aar` path creates a scratch
directory, extracts `classes.jar`, scans it, and removes the directory only
when the scan returned; any other path raises `Invalid jar file`. -/
def resolveInvalidEntries (fs : String → Zip) (jarFile level : String) :
    Except RunError (List String) × List FsEvent :=
  if strEndsWith jarFile ".jar" then
    (invalid_language_level (fs jarFile).jar level, [])
  else if strEndsWith jarFile ".aar" then
    match (fs jarFile).classesJar with
    | none => (.error (.keyError "classes.jar"), [.mkdtemp])
    | some j =>
      match invalid_language_level j level with
      | .error e => (.error e, [.mkdtemp, .extractClasses])
      | .ok inv => (.ok inv, [.mkdtemp, .extractClasses, .rmtree])
  else
    (.error (.invalidJar jarFile), [])

/-- The tail of `main`: propagate an error from scanning, otherwise raise the
validation error when the invalid-entries list is non-empty. -/
def finishRun (jarFile level : String) :
    Except RunError (List String) × List FsEvent →
    Except RunError Unit × List FsEvent
  | (.error e, tr) => (.error e, tr)
  | (.ok inv, tr) =>
    if inv.isEmpty then (.ok (), tr)
    else (.error (.validationError (validationMessage jarFile level inv)), tr)

/-- `main(argv)` of the script: reject more than three `argv` elements, unpack
the last two as jar path and expected level, resolve the invalid entries, and
report. -/
def runMain (fs : String → Zip) (argv : List String) :
    Except RunError Unit × List FsEvent :=
  if argv.length > 3 then
    (.error (.usageError argv.length), [])
  else
    match argv.drop (argv.length - 2) with
    | [jarFile, level] => finishRun jarFile level (resolveInvalidEntries fs jarFile level)
    | rest => (.error (.unpackError rest.length), [])

/-- The mismatch records the scanning loop accumulates, assuming every
processed entry parses: one `name: version` line per processed entry whose
single capture differs from the expected level, in stored order. -/
def invalidList (javap : String → String) (expected : String) :
    List ZipInfo → List String
  | [] => []
  | info :: rest =>
    if isProcessed info then
      match entryVersion javap info with
      | [v] =>
        if v = expected then invalidList javap expected rest
        else (info.filename ++ ": " ++ v) :: invalidList javap expected rest
      | _ => invalidList javap expected rest
    else
      invalidList javap expected rest

/-- Whether a run result is the argument-count usage error. -/
def isUsageError : Except RunError Unit → Bool
  | .error (.usageError _) => true
  | _ => false

/-- Whether a run result is the final validation error. -/
def isValidationError : Except RunError Unit → Bool
  | .error (.validationError _) => true
  | _ => false

/-- Whether a scan completed without raising. -/
def scanOk : Except RunError (List String) → Bool
  | .ok _ => true
  | .error _ => false

/-- A demonstration jar holding one class entry that targets level 52. -/
def demoJar : Jar where
  entries := [⟨"com/x/Y.class", false⟩]
  javap := fun _ => "  major version: 52\n"

/-- A demonstration filesystem: every path opens as `demoJar`, with a nested
`classes.jar` holding `demoJar` as well. -/
def demoFs : String → Zip :=
  fun _ => { jar := demoJar, classesJar := some demoJar }

/-- A demonstration jar with one level-52 entry and one level-55 entry. -/
def mixJar : Jar where
  entries := [⟨"com/x/Y.class", false⟩, ⟨"com/x/Z.class", false⟩]
  javap := fun a =>
    if a = "com/x/Z" then "  major version: 55\n" else "  major version: 52\n"

/-- A demonstration filesystem for `mixJar`. -/
def mixFs : String → Zip :=
  fun _ => { jar := mixJar, classesJar := none }

/-- A demonstration jar whose disassembler output matches the major-version
pattern twice for its single entry. -/
def badJar : Jar where
  entries := [⟨"com/x/B.class", false⟩]
  javap := fun _ => "major version: 52 major version: 53"

/-- A demonstration filesystem for `badJar`. -/
def badFs : String → Zip :=
  fun _ => { jar := badJar, classesJar := none }

/-- When every processed entry yields exactly one capture, the scanning loop
returns the mismatch records of `invalidList`. -/
theorem processEntries_eq_ok (javap : String → String) (expected : String) :
    ∀ entries : List ZipInfo,
      (∀ info ∈ entries, isProcessed info = true →
        (entryVersion javap info).length = 1) →
      processEntries javap expected entries =
        .ok (invalidList javap expected entries) := by
  intro entries
  induction entries with
  | nil => intro _; rfl
  | cons info rest ih =>
    intro h
    have hrest : ∀ i ∈ rest, isProcessed i = true →
        (entryVersion javap i).length = 1 :=
      fun i hi => h i (List.mem_cons_of_mem _ hi)
    by_cases hp : isProcessed info = true
    · obtain ⟨v, hv⟩ := List.length_eq_one.mp (h info (List.mem_cons_self _ _) hp)
      by_cases hve : v = expected
      · simp [processEntries, invalidList, hp, hv, hve, ih hrest]
      · simp [processEntries, invalidList, hp, hv, hve, ih hrest]
    · simp only [Bool.not_eq_true] at hp
      simp [processEntries, invalidList, hp, ih hrest]

/-- When every processed entry parses to exactly the expected level, no
mismatch is recorded. -/
theorem invalidList_all_match (javap : String → String) (expected : String) :
    ∀ entries : List ZipInfo,
      (∀ info ∈ entries, isProcessed info = true →
        entryVersion javap info = [expected]) →
      invalidList javap expected entries = [] := by
  intro entries
  induction entries with
  | nil => intro _; rfl
  | cons info rest ih =>
    intro h
    have hrest : ∀ i ∈ rest, isProcessed i = true →
        entryVersion javap i = [expected] :=
      fun i hi => h i (List.mem_cons_of_mem _ hi)
    by_cases hp : isProcessed info = true
    · simp [invalidList, hp, h info (List.mem_cons_self _ _) hp, ih hrest]
    · simp only [Bool.not_eq_true] at hp
      simp [invalidList, hp, ih hrest]

/-- An entry the filter skips contributes nothing: removing it from the entry
list does not change the scan, whatever the disassembler output for it. -/
theorem processEntries_skip (javap : String → String) (expected : String)
    (info : ZipInfo) (h : isProcessed info = false) :
    ∀ pre post : List ZipInfo,
      processEntries javap expected (pre ++ info :: post) =
        processEntries javap expected (pre ++ post) := by
  intro pre
  induction pre with
  | nil => intro post; simp [processEntries, h]
  | cons a pre ih =>
    intro post
    simp only [List.cons_append, processEntries, List.append_eq]
    rw [ih post]

/-- A processed entry whose capture list does not have exactly one element
aborts the scan with the parse error carrying those captures, provided every
processed entry before it parsed. -/
theorem processEntries_err (javap : String → String) (expected : String)
    (info : ZipInfo) (hproc : isProcessed info = true)
    (hbad : (entryVersion javap info).length ≠ 1) :
    ∀ pre : List ZipInfo,
      (∀ i ∈ pre, isProcessed i = true → (entryVersion javap i).length = 1) →
      ∀ post : List ZipInfo,
        processEntries javap expected (pre ++ info :: post) =
          .error (.parseError (entryVersion javap info)) := by
  intro pre
  induction pre with
  | nil =>
    intro _ post
    cases hv : entryVersion javap info with
    | nil => simp [processEntries, hproc, hv]
    | cons v t =>
      cases t with
      | nil => exact absurd (by rw [hv]; rfl) hbad
      | cons w t2 => simp [processEntries, hproc, hv]
  | cons a pre ih =>
    intro h post
    have hrest : ∀ i ∈ pre, isProcessed i = true →
        (entryVersion javap i).length = 1 :=
      fun i hi => h i (List.mem_cons_of_mem _ hi)
    by_cases hpa : isProcessed a = true
    · obtain ⟨va, hva⟩ :=
        List.length_eq_one.mp (h a (List.mem_cons_self _ _) hpa)
      simp [processEntries, hpa, hva, ih hrest post]
    · simp only [Bool.not_eq_true] at hpa
      simp [processEntries, hpa, ih hrest post]

/-- A scan either returns a list of records or raises the parse error; in
particular it never raises the usage error. -/
theorem processEntries_shape (javap : String → String) (expected : String) :
    ∀ entries : List ZipInfo,
      (∃ inv, processEntries javap expected entries = .ok inv) ∨
      (∃ found, processEntries javap expected entries =
        .error (.parseError found)) := by
  intro entries
  induction entries with
  | nil => exact .inl ⟨[], rfl⟩
  | cons info rest ih =>
    by_cases hp : isProcessed info = true
    · cases hv : entryVersion javap info with
      | nil => exact .inr ⟨[], by simp [processEntries, hp, hv]⟩
      | cons v t =>
        cases t with
        | nil =>
          rcases ih with ⟨inv, hok⟩ | ⟨found, herr⟩
          · exact .inl ⟨if v = expected then inv
              else (info.filename ++ ": " ++ v) :: inv,
              by simp [processEntries, hp, hv, hok]⟩
          · exact .inr ⟨found, by simp [processEntries, hp, hv, herr]⟩
        | cons w t2 =>
          exact .inr ⟨v :: w :: t2, by simp [processEntries, hp, hv]⟩
    · simp only [Bool.not_eq_true] at hp
      simpa [processEntries, hp] using ih

/-- The resolution step never produces the usage error. -/
theorem resolve_not_usage (fs : String → Zip) (jarFile level : String) :
    ∀ n, (resolveInvalidEntries fs jarFile level).1 ≠
      .error (.usageError n) := by
  intro n
  unfold resolveInvalidEntries
  by_cases h1 : strEndsWith jarFile ".jar" = true
  · rcases processEntries_shape (fs jarFile).jar.javap level
      (fs jarFile).jar.entries with ⟨inv, hok⟩ | ⟨found, herr⟩
    · simp [h1, invalid_language_level, hok]
    · simp [h1, invalid_language_level, herr]
  · simp only [Bool.not_eq_true] at h1
    by_cases h2 : strEndsWith jarFile ".aar" = true
    · cases hn : (fs jarFile).classesJar with
      | none => simp [h1, h2, hn]
      | some j =>
        rcases processEntries_shape j.javap level j.entries with
          ⟨inv, hok⟩ | ⟨found, herr⟩
        · simp [h1, h2, hn, invalid_language_level, hok]
        · simp [h1, h2, hn, invalid_language_level, herr]
    · simp only [Bool.not_eq_true] at h2
      simp [h1, h2]

/-- With at most three `argv` elements, the run never raises the usage
error. -/
theorem runMain_not_usage (fs : String → Zip) (argv : List String)
    (h : ¬ 3 < argv.length) :
    isUsageError (runMain fs argv).1 = false := by
  unfold runMain
  rw [if_neg h]
  cases hd : argv.drop (argv.length - 2) with
  | nil => rfl
  | cons a t =>
    cases t with
    | nil => rfl
    | cons b t2 =>
      cases t2 with
      | cons c t3 => rfl
      | nil =>
        simp only []
        cases hr : resolveInvalidEntries fs a b with
        | mk r tr =>
          cases r with
          | error e =>
            cases e with
            | usageError n =>
              exact absurd (by rw [hr]) (resolve_not_usage fs a b n)
            | unpackError g => simp [finishRun, isUsageError]
            | invalidJar f => simp [finishRun, isUsageError]
            | parseError f => simp [finishRun, isUsageError]
            | keyError k => simp [finishRun, isUsageError]
            | validationError m => simp [finishRun, isUsageError]
          | ok inv =>
            by_cases he : inv.isEmpty = true <;>
              simp [finishRun, isUsageError, he]

/-- A three-element `argv` passes the count check and unpacks into the jar
path and the expected level. -/
theorem runMain_three (fs : String → Zip) (s jarFile level : String) :
    runMain fs [s, jarFile, level] =
      finishRun jarFile level (resolveInvalidEntries fs jarFile level) := rfl

/-- The trace of the report step is the trace of the resolution step. -/
theorem finishRun_snd (jarFile level : String)
    (x : Except RunError (List String) × List FsEvent) :
    (finishRun jarFile level x).2 = x.2 := by
  obtain ⟨r, tr⟩ := x
  cases r with
  | error e => rfl
  | ok inv =>
    by_cases he : inv.isEmpty = true
    · simp [finishRun, he]
    · simp [finishRun, he]

/-- Resolution of a `.jar` path scans the jar directly, with no filesystem
event. -/
theorem resolve_jar (fs : String → Zip) (jarFile level : String)
    (h : strEndsWith jarFile ".jar" = true) :
    resolveInvalidEntries fs jarFile level =
      (invalid_language_level (fs jarFile).jar level, []) := by
  simp [resolveInvalidEntries, h]

/-- Claim C1: on a jar input whose scan parses every processed entry and
records at least one mismatch, the run raises the validation error whose
message names the archive path and the expected level and lists one
`entry: version` line per mismatched entry, in archive stored order,
newline-joined; entries whose version matches contribute no line. -/
theorem C1_validation_error_lists_mismatches (fs : String → Zip)
    (s jarFile level : String)
    (hjar : strEndsWith jarFile ".jar" = true)
    (hone : ∀ info ∈ (fs jarFile).jar.entries, isProcessed info = true →
      (entryVersion (fs jarFile).jar.javap info).length = 1)
    (hne : invalidList (fs jarFile).jar.javap level (fs jarFile).jar.entries ≠ []) :
    runMain fs [s, jarFile, level] =
      (.error (.validationError (validationMessage jarFile level
        (invalidList (fs jarFile).jar.javap level (fs jarFile).jar.entries))), []) := by
  rw [runMain_three, resolve_jar fs jarFile level hjar, invalid_language_level,
    processEntries_eq_ok _ _ _ hone]
  have hne' : (invalidList (fs jarFile).jar.javap level
      (fs jarFile).jar.entries).isEmpty = false := by
    cases hli : invalidList (fs jarFile).jar.javap level (fs jarFile).jar.entries with
    | nil => exact absurd hli hne
    | cons a t => rfl
  simp [finishRun, hne']

/-- Witness for C1: a jar with a level-52 and a level-55 entry against
expected level 52 raises the validation error listing only the level-55
entry. -/
theorem C1_witness :
    strEndsWith "lib.jar" ".jar" = true ∧
    (∀ info ∈ (mixFs "lib.jar").jar.entries, isProcessed info = true →
      (entryVersion (mixFs "lib.jar").jar.javap info).length = 1) ∧
    invalidList (mixFs "lib.jar").jar.javap "52" (mixFs "lib.jar").jar.entries ≠ [] ∧
    runMain mixFs ["v", "lib.jar", "52"] =
      (.error (.validationError (validationMessage "lib.jar" "52"
        (invalidList (mixFs "lib.jar").jar.javap "52" (mixFs "lib.jar").jar.entries))),
        []) :=
  ⟨by decide, by decide, by decide,
    C1_validation_error_lists_mismatches mixFs "v" "lib.jar" "52"
      (by decide) (by decide) (by decide)⟩

/-- Claim C2: on a jar input in which every processed entry parses to exactly
the expected level, the run completes without raising. -/
theorem C2_all_match_runs_clean (fs : String → Zip) (s jarFile level : String)
    (hjar : strEndsWith jarFile ".jar" = true)
    (hall : ∀ info ∈ (fs jarFile).jar.entries, isProcessed info = true →
      entryVersion (fs jarFile).jar.javap info = [level]) :
    runMain fs [s, jarFile, level] = (.ok (), []) := by
  have hone : ∀ info ∈ (fs jarFile).jar.entries, isProcessed info = true →
      (entryVersion (fs jarFile).jar.javap info).length = 1 := by
    intro i hi hp
    rw [hall i hi hp]
    rfl
  rw [runMain_three, resolve_jar fs jarFile level hjar, invalid_language_level,
    processEntries_eq_ok _ _ _ hone, invalidList_all_match _ _ _ hall]
  rfl

/-- Witness for C2: a jar whose single entry targets level 52, validated
against 52, completes without raising. -/
theorem C2_witness :
    strEndsWith "lib.jar" ".jar" = true ∧
    (∀ info ∈ (demoFs "lib.jar").jar.entries, isProcessed info = true →
      entryVersion (demoFs "lib.jar").jar.javap info = ["52"]) ∧
    runMain demoFs ["v", "lib.jar", "52"] = (.ok (), []) :=
  ⟨by decide, by decide,
    C2_all_match_runs_clean demoFs "v" "lib.jar" "52" (by decide) (by decide)⟩

/-- Claim C3: a directory entry, a non-`.class` entry, or an entry under one
of the ignored prefixes is never passed to version extraction and never
contributes to the invalid-entries list: deleting it from the entry list
leaves the scan unchanged, whatever the disassembler would say about it. -/
theorem C3_skipped_entries_contribute_nothing (javap : String → String)
    (expected : String) (pre post : List ZipInfo) (info : ZipInfo)
    (h : info.isDir = true ∨ strEndsWith info.filename ".class" = false ∨
      ignore_entry info.filename = true) :
    processEntries javap expected (pre ++ info :: post) =
      processEntries javap expected (pre ++ post) := by
  have hp : isProcessed info = false := by
    rcases h with h | h | h <;> simp [isProcessed, h]
  exact processEntries_skip javap expected info hp pre post

/-- Witness for C3: a shaded entry whose disassembler output has no version
line at all is skipped, leaving the scan of the rest unchanged. -/
theorem C3_witness :
    ((⟨"dagger/grpc/shaded/G.class", false⟩ : ZipInfo).isDir = true ∨
      strEndsWith (ZipInfo.filename ⟨"dagger/grpc/shaded/G.class", false⟩)
        ".class" = false ∨
      ignore_entry (ZipInfo.filename ⟨"dagger/grpc/shaded/G.class", false⟩) = true) ∧
    processEntries (fun _ => "no version line here") "52"
        ([] ++ (⟨"dagger/grpc/shaded/G.class", false⟩ : ZipInfo) :: []) =
      processEntries (fun _ => "no version line here") "52" ([] ++ []) :=
  ⟨by decide,
    C3_skipped_entries_contribute_nothing (fun _ => "no version line here") "52"
      [] [] ⟨"dagger/grpc/shaded/G.class", false⟩ (by decide)⟩

/-- Claim C4: a processed entry whose disassembler output matches the
major-version pattern zero times or more than once aborts the whole run with
the parse error carrying the capture list; no invalid-entries result is
produced, whatever entries follow. -/
theorem C4_parse_error_aborts_run (fs : String → Zip)
    (s jarFile level : String) (pre post : List ZipInfo) (info : ZipInfo)
    (hjar : strEndsWith jarFile ".jar" = true)
    (hsplit : (fs jarFile).jar.entries = pre ++ info :: post)
    (hpre : ∀ i ∈ pre, isProcessed i = true →
      (entryVersion (fs jarFile).jar.javap i).length = 1)
    (hproc : isProcessed info = true)
    (hbad : (entryVersion (fs jarFile).jar.javap info).length ≠ 1) :
    runMain fs [s, jarFile, level] =
      (.error (.parseError (entryVersion (fs jarFile).jar.javap info)), []) := by
  rw [runMain_three, resolve_jar fs jarFile level hjar, invalid_language_level, hsplit,
    processEntries_err _ level info hproc hbad pre hpre post]
  rfl

/-- Witness for C4: an entry whose disassembler output matches the pattern
twice aborts the run with the parse error carrying both captures. -/
theorem C4_witness :
    strEndsWith "lib.jar" ".jar" = true ∧
    (badFs "lib.jar").jar.entries =
      [] ++ (⟨"com/x/B.class", false⟩ : ZipInfo) :: [] ∧
    isProcessed ⟨"com/x/B.class", false⟩ = true ∧
    (entryVersion (badFs "lib.jar").jar.javap ⟨"com/x/B.class", false⟩).length ≠ 1 ∧
    runMain badFs ["v", "lib.jar", "52"] =
      (.error (.parseError
        (entryVersion (badFs "lib.jar").jar.javap ⟨"com/x/B.class", false⟩)), []) :=
  ⟨by decide, by decide, by decide, by decide,
    C4_parse_error_aborts_run badFs "v" "lib.jar" "52" [] []
      ⟨"com/x/B.class", false⟩ (by decide) (by decide)
      (by intro i hi; exact absurd hi (List.not_mem_nil i))
      (by decide) (by decide)⟩

/-- Claim C5: an aar whose outer zip contains an entry literally named
`classes.jar` is validated exactly as the nested jar passed directly as a
`.jar` input with the same level: the invalid-entries computation is
identical, and the run raises the validation error on one exactly when it
does on the other. -/
theorem C5_aar_validates_nested_jar (fs fsd : String → Zip)
    (s sd p q level : String) (j : Jar)
    (hp1 : strEndsWith p ".jar" = false)
    (hp2 : strEndsWith p ".aar" = true)
    (hnested : (fs p).classesJar = some j)
    (hq : strEndsWith q ".jar" = true)
    (hjd : (fsd q).jar = j) :
    (resolveInvalidEntries fs p level).1 = invalid_language_level j level ∧
    (resolveInvalidEntries fsd q level).1 = invalid_language_level j level ∧
    isValidationError (runMain fs [s, p, level]).1 =
      isValidationError (runMain fsd [sd, q, level]).1 := by
  have hra : resolveInvalidEntries fs p level =
      (match invalid_language_level j level with
       | .error e => (.error e, [.mkdtemp, .extractClasses])
       | .ok inv => (.ok inv, [.mkdtemp, .extractClasses, .rmtree])) := by
    simp [resolveInvalidEntries, hp1, hp2, hnested]
  have hrb : resolveInvalidEntries fsd q level =
      (invalid_language_level j level, []) := by
    simp [resolveInvalidEntries, hq, hjd]
  refine ⟨?_, ?_, ?_⟩
  · rw [hra]
    cases invalid_language_level j level <;> rfl
  · rw [hrb]
  · rw [runMain_three, runMain_three, hra, hrb]
    cases hr : invalid_language_level j level with
    | error e => rfl
    | ok inv =>
      by_cases he : inv.isEmpty = true
      · simp [finishRun, he, isValidationError]
      · simp [finishRun, he, isValidationError]

/-- Witness for C5: an aar nesting `demoJar` resolves to the same
invalid-entries result as `demoJar` scanned through a `.jar` path, and the
validation outcomes agree. -/
theorem C5_witness :
    strEndsWith "lib.aar" ".jar" = false ∧
    strEndsWith "lib.aar" ".aar" = true ∧
    (demoFs "lib.aar").classesJar = some demoJar ∧
    strEndsWith "lib.jar" ".jar" = true ∧
    (demoFs "lib.jar").jar = demoJar ∧
    ((resolveInvalidEntries demoFs "lib.aar" "52").1 =
        invalid_language_level demoJar "52" ∧
      (resolveInvalidEntries demoFs "lib.jar" "52").1 =
        invalid_language_level demoJar "52" ∧
      isValidationError (runMain demoFs ["v", "lib.aar", "52"]).1 =
        isValidationError (runMain demoFs ["w", "lib.jar", "52"]).1) :=
  ⟨by decide, by decide, rfl, by decide, rfl,
    C5_aar_validates_nested_jar demoFs demoFs "v" "w" "lib.aar" "lib.jar" "52"
      demoJar (by decide) (by decide) rfl (by decide) rfl⟩

/-- Claim C6: the extracted version is compared to the expected level by
exact string equality with no numeric coercion: a processed entry whose
single capture is `v` is recorded as invalid exactly when `v` is not
character-for-character equal to the caller-supplied token. -/
theorem C6_exact_string_comparison (javap : String → String)
    (expected : String) (info : ZipInfo) (v : String)
    (hproc : isProcessed info = true)
    (hv : entryVersion javap info = [v]) :
    processEntries javap expected [info] =
      .ok (if v = expected then [] else [info.filename ++ ": " ++ v]) := by
  simp [processEntries, hproc, hv]

/-- Witness for C6: expected token `052` does not equal extracted `52`, so
the entry is recorded as invalid even though the two are numerically equal. -/
theorem C6_witness :
    isProcessed ⟨"com/x/Y.class", false⟩ = true ∧
    entryVersion (fun _ => "major version: 52") ⟨"com/x/Y.class", false⟩ = ["52"] ∧
    processEntries (fun _ => "major version: 52") "052"
        [⟨"com/x/Y.class", false⟩] =
      .ok (if "52" = "052" then [] else ["com/x/Y.class" ++ ": " ++ "52"]) :=
  ⟨by decide, by decide,
    C6_exact_string_comparison (fun _ => "major version: 52") "052"
      ⟨"com/x/Y.class", false⟩ "52" (by decide) (by decide)⟩

/-- Claim C7: an input path ending in neither `.jar` nor `.aar` makes the run
raise the invalid-jar error naming the file, with an empty filesystem trace
and with no dependence on any archive content or disassembler output. -/
theorem C7_bad_extension_rejected (fs : String → Zip) (s jarFile level : String)
    (h1 : strEndsWith jarFile ".jar" = false)
    (h2 : strEndsWith jarFile ".aar" = false) :
    runMain fs [s, jarFile, level] = (.error (.invalidJar jarFile), []) := by
  rw [runMain_three]
  have hres : resolveInvalidEntries fs jarFile level =
      (.error (.invalidJar jarFile), []) := by
    simp [resolveInvalidEntries, h1, h2]
  rw [hres]
  rfl

/-- Witness for C7: a `.txt` path is rejected with the invalid-jar error. -/
theorem C7_witness :
    strEndsWith "lib.txt" ".jar" = false ∧
    strEndsWith "lib.txt" ".aar" = false ∧
    runMain demoFs ["v", "lib.txt", "52"] =
      (.error (.invalidJar "lib.txt"), []) :=
  ⟨by decide, by decide,
    C7_bad_extension_rejected demoFs "v" "lib.txt" "52" (by decide) (by decide)⟩

/-- Claim C8 fails as stated: a two-element `argv` — a single positional
argument, hence a wrong argument count — raises no usage error; the run
proceeds to the extension check against the script name instead. -/
theorem C8_counterexample :
    (["validate-jar-language-level.py", "52"] : List String).length ≠ 3 ∧
    isUsageError
      (runMain demoFs ["validate-jar-language-level.py", "52"]).1 = false := by
  exact ⟨by decide, by decide⟩

/-- Claim C8 amended: the argument-count usage error is raised exactly when
`argv` has more than three elements (more than two positional arguments);
a wrong count on the low side never raises it. -/
theorem C8_amended_usage_iff_too_many (fs : String → Zip) (argv : List String) :
    isUsageError (runMain fs argv).1 = true ↔ 3 < argv.length := by
  constructor
  · intro h
    by_contra hn
    rw [runMain_not_usage fs argv hn] at h
    exact Bool.false_ne_true h
  · intro h
    unfold runMain
    rw [if_pos h]
    rfl

/-- Claim C9: on an aar input the scratch directory is removed exactly when
extraction and scanning complete without raising: the filesystem trace ends
with `rmtree` iff the resolution step returned a result, and always starts
with `mkdtemp`. -/
theorem C9_scratch_dir_removed_iff_scan_ok (fs : String → Zip)
    (s jarFile level : String)
    (h1 : strEndsWith jarFile ".jar" = false)
    (h2 : strEndsWith jarFile ".aar" = true) :
    (runMain fs [s, jarFile, level]).2.contains FsEvent.rmtree =
      scanOk (resolveInvalidEntries fs jarFile level).1 ∧
    (runMain fs [s, jarFile, level]).2.contains FsEvent.mkdtemp = true := by
  rw [runMain_three, finishRun_snd]
  cases hn : (fs jarFile).classesJar with
  | none =>
    have hres : resolveInvalidEntries fs jarFile level =
        (.error (.keyError "classes.jar"), [.mkdtemp]) := by
      simp [resolveInvalidEntries, h1, h2, hn]
    rw [hres]
    exact ⟨rfl, rfl⟩
  | some j =>
    cases hr : invalid_language_level j level with
    | error e =>
      have hres : resolveInvalidEntries fs jarFile level =
          (.error e, [.mkdtemp, .extractClasses]) := by
        simp [resolveInvalidEntries, h1, h2, hn, hr]
      rw [hres]
      exact ⟨rfl, rfl⟩
    | ok inv =>
      have hres : resolveInvalidEntries fs jarFile level =
          (.ok inv, [.mkdtemp, .extractClasses, .rmtree]) := by
        simp [resolveInvalidEntries, h1, h2, hn, hr]
      rw [hres]
      exact ⟨rfl, rfl⟩

/-- Witness for C9: a clean aar run creates and removes the scratch
directory. -/
theorem C9_witness :
    strEndsWith "lib.aar" ".jar" = false ∧
    strEndsWith "lib.aar" ".aar" = true ∧
    ((runMain demoFs ["v", "lib.aar", "52"]).2.contains FsEvent.rmtree =
        scanOk (resolveInvalidEntries demoFs "lib.aar" "52").1 ∧
      (runMain demoFs ["v", "lib.aar", "52"]).2.contains FsEvent.mkdtemp = true) :=
  ⟨by decide, by decide,
    C9_scratch_dir_removed_iff_scan_ok demoFs "v" "lib.aar" "52"
      (by decide) (by decide)⟩

/-- Claim C10: a two-element `argv` (one positional argument) raises no
argument-count error: the last two elements are unpacked, so the run behaves
exactly as if the script-name element had been passed as the archive path,
and no usage error is raised. -/
theorem C10_script_name_used_as_archive (fs : String → Zip)
    (progName s level : String) :
    runMain fs [s, level] = runMain fs [progName, s, level] ∧
    isUsageError (runMain fs [s, level]).1 = false := by
  constructor
  · rfl
  · exact runMain_not_usage fs [s, level] (by simp)

end ValidateJar
